import Mathlib

/-!
# Verification of the CP3416 Hacking-Game simulation engine

Shallow embedding of the turn-based Attacker-vs-Defender simulation engine
from `manual_cyber_game(non-interface).py` (the same engine logic is
duplicated verbatim in the two GUI front-ends).

Modelling conventions:
* Python `float` arithmetic is modelled by exact rationals (`ℚ`); every
  constant in the engine is a short decimal, so the formulas are stated
  exactly.
* Python `int` is modelled by `ℤ`; `int(x)` on a float is truncation
  toward zero (`pytrunc`).
* Python sets of node names are modelled by `List String` in insertion
  order (`setAdd` appends when absent, `discard` filters); the engine only
  ever relies on the iteration order in `def_forensic`, where the source
  order is unspecified.
* Python dicts are association lists; `defaultdict(lambda: 0)` is a
  lookup-or-0 accessor (`getPatch`).
* The global `random` stream is an explicit structure `Rng`: an infinite
  stream of `[0,1)` draws plus a cursor.  `random.random()` reads the
  cursor position and advances it; "consumes no draw" means the cursor is
  unchanged.
* Actions that index the node registry with a missing key raise `KeyError`
  in Python; here they return `none` (the whole action aborts).
* The formatted result strings are modelled by the inductive `Message`,
  one constructor per `return` site, carrying the interpolated data.
-/

/-- One entry of the node registry: static payoff value, dynamic exposure,
and the compromise flag. -/
structure Node where
  value : ℤ
  exposure : ℚ
  is_compromised : Bool
deriving Repr, DecidableEq

/-- The node registry: a Python dict from node name to node record. -/
abbrev Registry := List (String × Node)

/-- Source `nodes[k]` as a total function: `none` models a `KeyError`. -/
def lookupNode : Registry → String → Option Node
  | [], _ => none
  | (k', v) :: rest, k => if k' = k then some v else lookupNode rest k

/-- In-place mutation of the entry at key `k` (used only after a successful
lookup, i.e. when the key is present). -/
def updateNode (nodes : Registry) (k : String) (f : Node → Node) : Registry :=
  nodes.map (fun p => if p.1 = k then (p.1, f p.2) else p)

/-- Python `set.add`: append when absent (insertion-order model). -/
def setAdd (s : List String) (x : String) : List String :=
  if x ∈ s then s else s ++ [x]

/-- Python `set.discard` (removes the name when present). -/
def setDiscard (s : List String) (x : String) : List String :=
  s.filter (fun y => y ≠ x)

/-- Source `defaultdict(lambda: 0)` read access. -/
def getPatch (pl : List (String × ℤ)) (k : String) : ℤ :=
  match pl.lookup k with
  | some v => v
  | none => 0

/-- Dict assignment `pl[k] = v`: update in place when present, else insert. -/
def setPatch (pl : List (String × ℤ)) (k : String) (v : ℤ) : List (String × ℤ) :=
  if (pl.lookup k).isSome then pl.map (fun p => if p.1 = k then (p.1, v) else p)
  else pl ++ [(k, v)]

/-- Python `int(x)`: truncation toward zero. -/
def pytrunc (q : ℚ) : ℤ :=
  if 0 ≤ q then q.floor else -((-q).floor)

/-- The global random stream: an infinite sequence of draws and a cursor. -/
structure Rng where
  stream : ℕ → ℚ
  idx : ℕ

/-- Source `random.random()`. -/
def Rng.random (g : Rng) : ℚ × Rng :=
  (g.stream g.idx, ⟨g.stream, g.idx + 1⟩)

/-- Source `random.uniform(a, b) = a + (b - a) * random.random()`. -/
def Rng.uniform (g : Rng) (a b : ℚ) : ℚ × Rng :=
  let (u, g') := g.random
  (a + (b - a) * u, g')

/-- Source `class Attacker` state record. -/
structure Attacker where
  funds : ℤ
  skill : ℚ
  influence : ℚ
  members : ℤ
  compromised : List String
  exfiltrated_value : ℤ
deriving Repr, DecidableEq

/-- Source `Attacker.__init__`. -/
def Attacker.init : Attacker :=
  { funds := 50, skill := 5, influence := 1, members := 1
    compromised := [], exfiltrated_value := 0 }

/-- Source `class Defender` state record. -/
structure Defender where
  budget : ℤ
  patch_level : List (String × ℤ)
  monitoring : ℚ
  awareness : ℚ
  isolated : List String
  honeypots : List String
deriving Repr, DecidableEq

/-- Source `Defender.__init__`. -/
def Defender.init : Defender :=
  { budget := 60, patch_level := [], monitoring := 1, awareness := 1
    isolated := [], honeypots := [] }

/-- Source `TOPOLOGY.get(n, [])`: the static undirected adjacency map. -/
def TOPOLOGY : String → List String := fun n =>
  if n = "Internet" then ["Firewall"]
  else if n = "Firewall" then ["Internet", "DMZ"]
  else if n = "DMZ" then ["Firewall", "CorpLAN"]
  else if n = "CorpLAN" then ["DMZ", "Admin", "Insider", "SIEM"]
  else if n = "Admin" then ["CorpLAN"]
  else if n = "SIEM" then ["CorpLAN"]
  else if n = "Insider" then ["CorpLAN"]
  else []

/-- Source `BASE_NODES` (= `deep_copy_nodes()` at game start). -/
def BASE_NODES : Registry :=
  [ ("Internet", { value := 0,  exposure := 1,    is_compromised := false }),
    ("Firewall", { value := 5,  exposure := 0.20, is_compromised := false }),
    ("DMZ",      { value := 10, exposure := 0.40, is_compromised := false }),
    ("CorpLAN",  { value := 20, exposure := 0.60, is_compromised := false }),
    ("Admin",    { value := 30, exposure := 0.30, is_compromised := false }),
    ("SIEM",     { value := 15, exposure := 0.25, is_compromised := false }),
    ("Insider",  { value := 8,  exposure := 0.50, is_compromised := false }) ]

/-- Result of one probability primitive: outcome, effective probability,
raw draw. -/
structure RollOut where
  succ : Bool
  p : ℚ
  roll : ℚ
deriving Repr, DecidableEq

/-- Source `chance_success(base_prob, attacker_skill, defender_patch, modifiers)`. -/
def chance_success (base_prob : ℚ) (attacker_skill : ℚ) (defender_patch : ℤ)
    (modifiers : ℚ) (g : Rng) : RollOut × Rng :=
  let skill_factor := 1 + attacker_skill / 10
  let patch_factor := max 0 (1 - (defender_patch : ℚ) / 12)
  let p := base_prob * skill_factor * modifiers * patch_factor
  let p := max 0 (min 0.95 p)
  let (roll, g') := g.random
  (⟨decide (roll < p), p, roll⟩, g')

/-- Source `detection_check(base_detection, defender_monitoring, stealth_mod)`. -/
def detection_check (base_detection : ℚ) (defender_monitoring : ℚ)
    (stealth_mod : ℚ) (g : Rng) : RollOut × Rng :=
  let p := base_detection * defender_monitoring * stealth_mod
  let p := max 0 (min 0.99 p)
  let (roll, g') := g.random
  (⟨decide (roll < p), p, roll⟩, g')

/-- The result strings of the engine, one constructor per `return` site,
carrying the values interpolated into the corresponding f-string. -/
inductive Message where
  | reconMsg (node : String) (succ : Bool) (p : ℚ) (det : Bool) (dp : ℚ)
  | socialMsg (node : String) (succ : Bool) (p : ℚ) (det : Bool) (dp : ℚ)
  | recruitSuccess
  | recruitFailed
  | exploitAborted (target : String)
  | exploitMsg (target : String) (succ : Bool) (p : ℚ) (det : Bool) (dp : ℚ)
      (adj_compromised : Bool)
  | lateralFailedSource (src dst : String)
  | lateralFailedAdjacent (src dst : String)
  | lateralMsg (src dst : String) (succ : Bool) (p : ℚ) (det : Bool) (dp : ℚ)
  | exfilFailed (node : String)
  | exfilMsg (node : String) (succ : Bool) (p : ℚ) (det : Bool) (dp : ℚ) (gained : ℤ)
  | hardenFailed (node : String)
  | hardenMsg (node : String)
  | patchFailed
  | patchMsg (node : String) (patch : ℤ) (exposure : ℚ)
  | monitorFailed
  | monitorMsg (monitoring : ℚ)
  | awarenessFailed
  | awarenessMsg (awareness : ℚ)
  | isolateFailed
  | isolateMsg (node : String)
  | honeypotFailed
  | honeypotMsg (node : String)
  | forensicFailed
  | forensicSuccess (removed : List String)
  | forensicNoFindings
  | unknownAttacker (key : String)
  | unknownDefender (key : String)
deriving Repr, DecidableEq

/-- Full outcome of one attacker action: `(msg, det)` plus the mutated
state and the advanced random stream. -/
structure AttOut where
  msg : Message
  det : Bool
  att : Attacker
  dfn : Defender
  nodes : Registry
  rng : Rng

/-- Source `act_recon(att, dfn, nodes, node)`. -/
def act_recon (att : Attacker) (dfn : Defender) (nodes : Registry)
    (node : String) (g : Rng) : Option AttOut :=
  let base : ℚ := 0.6
  let (s, g) := chance_success base att.skill (getPatch dfn.patch_level node) 1 g
  let (d, g) := detection_check 0.05 dfn.monitoring 0.8 g
  if s.succ then
    match lookupNode nodes node with
    | none => none
    | some _ =>
      some ⟨.reconMsg node s.succ s.p d.succ d.p, d.succ, att, dfn,
        updateNode nodes node (fun n => { n with exposure := min 1 (n.exposure + 0.1) }), g⟩
  else
    some ⟨.reconMsg node s.succ s.p d.succ d.p, d.succ, att, dfn, nodes, g⟩

/-- Source `act_social(att, dfn, nodes, node="Insider")`. -/
def act_social (att : Attacker) (dfn : Defender) (nodes : Registry) (g : Rng)
    (node : String := "Insider") : Option AttOut :=
  let base := 0.35 * att.influence
  let (s, g) := chance_success base att.skill (getPatch dfn.patch_level node)
    (1 / dfn.awareness) g
  let (d, g) := detection_check 0.15 dfn.monitoring 1.2 g
  if s.succ then
    match lookupNode nodes node with
    | none => none
    | some _ =>
      some ⟨.socialMsg node s.succ s.p d.succ d.p, d.succ,
        { att with compromised := setAdd att.compromised node }, dfn,
        updateNode nodes node (fun n => { n with is_compromised := true }), g⟩
  else
    some ⟨.socialMsg node s.succ s.p d.succ d.p, d.succ, att, dfn, nodes, g⟩

/-- Source `act_recruit(att)`: deterministic, touches neither the defender, the
registry nor the random stream. -/
def act_recruit (att : Attacker) : Message × Bool × Attacker :=
  let cost : ℤ := 15
  if att.funds ≥ cost then
    (.recruitSuccess, false,
      { att with funds := att.funds - cost, members := att.members + 1,
                 skill := att.skill + 1 })
  else
    (.recruitFailed, false, att)

/-- Source `act_exploit(att, dfn, nodes, target)`. -/
def act_exploit (att : Attacker) (dfn : Defender) (nodes : Registry)
    (target : String) (g : Rng) : Option AttOut :=
  if target ∈ dfn.isolated then
    some ⟨.exploitAborted target, false, att, dfn, nodes, g⟩
  else
    match lookupNode nodes target with
    | none => none
    | some nd =>
      let base := nd.exposure
      let adj_compromised := (TOPOLOGY target).any (fun adj => adj ∈ att.compromised)
      let mod : ℚ := if adj_compromised then 1.3 else 1
      let (s, g) := chance_success base att.skill (getPatch dfn.patch_level target) mod g
      let (d, g) := detection_check (0.1 + (nd.value : ℚ) / 100) dfn.monitoring 0.9 g
      if s.succ then
        some ⟨.exploitMsg target s.succ s.p d.succ d.p adj_compromised, d.succ,
          { att with compromised := setAdd att.compromised target }, dfn,
          updateNode nodes target (fun n => { n with is_compromised := true }), g⟩
      else
        some ⟨.exploitMsg target s.succ s.p d.succ d.p adj_compromised, d.succ,
          att, dfn, nodes, g⟩

/-- Source `act_lateral(att, dfn, nodes, src, dst)`. -/
def act_lateral (att : Attacker) (dfn : Defender) (nodes : Registry)
    (src dst : String) (g : Rng) : Option AttOut :=
  if src ∉ att.compromised then
    some ⟨.lateralFailedSource src dst, false, att, dfn, nodes, g⟩
  else if dst ∉ TOPOLOGY src then
    some ⟨.lateralFailedAdjacent src dst, false, att, dfn, nodes, g⟩
  else
    match lookupNode nodes dst with
    | none => none
    | some nd =>
      let base := 0.4 + nd.exposure * 0.3
      let (s, g) := chance_success base att.skill (getPatch dfn.patch_level dst) 1 g
      let (d, g) := detection_check 0.12 dfn.monitoring 1 g
      if s.succ then
        some ⟨.lateralMsg src dst s.succ s.p d.succ d.p, d.succ,
          { att with compromised := setAdd att.compromised dst }, dfn,
          updateNode nodes dst (fun n => { n with is_compromised := true }), g⟩
      else
        some ⟨.lateralMsg src dst s.succ s.p d.succ d.p, d.succ, att, dfn, nodes, g⟩

/-- Source `act_exfiltrate(att, dfn, nodes, node)`. -/
def act_exfiltrate (att : Attacker) (dfn : Defender) (nodes : Registry)
    (node : String) (g : Rng) : Option AttOut :=
  if node ∉ att.compromised then
    some ⟨.exfilFailed node, false, att, dfn, nodes, g⟩
  else
    let (s, g) := chance_success 0.5 att.skill (getPatch dfn.patch_level node) 1 g
    match lookupNode nodes node with
    | none => none
    | some nd =>
      let (d, g) := detection_check (0.25 + (nd.value : ℚ) / 100) dfn.monitoring 1 g
      if s.succ then
        let (u, g) := g.uniform 0.5 1
        let gained := pytrunc ((nd.value : ℚ) * u)
        some ⟨.exfilMsg node s.succ s.p d.succ d.p gained, d.succ,
          { att with exfiltrated_value := att.exfiltrated_value + gained,
                     funds := att.funds + pytrunc ((gained : ℚ) * 0.5) },
          dfn, nodes, g⟩
      else
        some ⟨.exfilMsg node s.succ s.p d.succ d.p 0, d.succ, att, dfn, nodes, g⟩

/-- Source `act_harden(att, node)`: deterministic, no defender / registry / rng. -/
def act_harden (att : Attacker) (node : String) : Message × Bool × Attacker :=
  if node ∉ att.compromised then
    (.hardenFailed node, false, att)
  else
    (.hardenMsg node, false, { att with skill := att.skill + 0.2 })

/-- Full outcome of one defender action: message plus mutated state and
advanced random stream (only `def_forensic` draws). -/
structure DefOut where
  msg : Message
  att : Attacker
  dfn : Defender
  nodes : Registry
  rng : Rng

/-- Source `def_patch(dfn, nodes, node)`. -/
def def_patch (dfn : Defender) (nodes : Registry) (node : String)
    (att : Attacker) (g : Rng) : Option DefOut :=
  let cost : ℤ := 8
  if dfn.budget < cost then
    some ⟨.patchFailed, att, dfn, nodes, g⟩
  else
    match lookupNode nodes node with
    | none => none
    | some nd =>
      let newPatch := min 10 (getPatch dfn.patch_level node + 2)
      let newExp := max 0.05 (nd.exposure - 0.15)
      some ⟨.patchMsg node newPatch newExp, att,
        { dfn with budget := dfn.budget - cost,
                   patch_level := setPatch dfn.patch_level node newPatch },
        updateNode nodes node (fun n => { n with exposure := newExp }), g⟩

/-- Source `def_monitor(dfn)`. -/
def def_monitor (dfn : Defender) (att : Attacker) (nodes : Registry)
    (g : Rng) : DefOut :=
  let cost : ℤ := 6
  if dfn.budget < cost then
    ⟨.monitorFailed, att, dfn, nodes, g⟩
  else
    let m := min 3 (dfn.monitoring + 0.3)
    ⟨.monitorMsg m, att, { dfn with budget := dfn.budget - cost, monitoring := m },
      nodes, g⟩

/-- Source `def_awareness(dfn)`. -/
def def_awareness (dfn : Defender) (att : Attacker) (nodes : Registry)
    (g : Rng) : DefOut :=
  let cost : ℤ := 10
  if dfn.budget < cost then
    ⟨.awarenessFailed, att, dfn, nodes, g⟩
  else
    let a := max 0.5 (dfn.awareness - 0.2)
    ⟨.awarenessMsg a, att, { dfn with budget := dfn.budget - cost, awareness := a },
      nodes, g⟩

/-- Source `def_isolate(dfn, nodes, node)`.  Note the source clears only the
node's `is_compromised` flag; the attacker's `compromised` set is not
touched (the function is not even passed the attacker object). -/
def def_isolate (dfn : Defender) (nodes : Registry) (node : String)
    (att : Attacker) (g : Rng) : Option DefOut :=
  let cost : ℤ := 12
  if dfn.budget < cost then
    some ⟨.isolateFailed, att, dfn, nodes, g⟩
  else
    let dfn := { dfn with budget := dfn.budget - cost,
                          isolated := setAdd dfn.isolated node }
    match lookupNode nodes node with
    | none => none
    | some nd =>
      let nodes :=
        if nd.is_compromised then
          updateNode nodes node (fun n => { n with is_compromised := false })
        else nodes
      some ⟨.isolateMsg node, att, dfn, nodes, g⟩

/-- Source `def_honeypot(dfn, node)`. -/
def def_honeypot (dfn : Defender) (node : String) (att : Attacker)
    (nodes : Registry) (g : Rng) : DefOut :=
  let cost : ℤ := 7
  if dfn.budget < cost then
    ⟨.honeypotFailed, att, dfn, nodes, g⟩
  else
    ⟨.honeypotMsg node, att,
      { dfn with budget := dfn.budget - cost,
                 honeypots := setAdd dfn.honeypots node }, nodes, g⟩

/-- The eviction loop body of `def_forensic`: for each evicted node, clear
the registry flag (`KeyError` when absent) and discard it from the
attacker's set. -/
def evictNodes (removed : List String) (nodes : Registry)
    (compromised : List String) : Option (Registry × List String) :=
  match removed with
  | [] => some (nodes, compromised)
  | node :: rest =>
    match lookupNode nodes node with
    | none => none
    | some _ =>
      evictNodes rest
        (updateNode nodes node (fun n => { n with is_compromised := false }))
        (setDiscard compromised node)

/-- Source `def_forensic(dfn, att, nodes)`. -/
def def_forensic (dfn : Defender) (att : Attacker) (nodes : Registry)
    (g : Rng) : Option DefOut :=
  let cost : ℤ := 10
  if dfn.budget < cost then
    some ⟨.forensicFailed, att, dfn, nodes, g⟩
  else
    let dfn := { dfn with budget := dfn.budget - cost }
    let compromised_count := att.compromised.length
    let base := 0.4 + 0.05 * (compromised_count : ℚ)
    let p := min 0.9 (base * dfn.monitoring)
    let (roll, g) := g.random
    let succ := decide (roll < p)
    if succ && compromised_count != 0 then
      let rem_ct := max 1 (compromised_count / 2)
      let removed := att.compromised.take rem_ct
      match evictNodes removed nodes att.compromised with
      | none => none
      | some (nodes, compromised) =>
        some ⟨.forensicSuccess removed,
          { att with compromised := compromised,
                     funds := max 0 (att.funds - 10),
                     skill := max 1 (att.skill - 0.5) },
          dfn, nodes, g⟩
    else
      some ⟨.forensicNoFindings, att, dfn, nodes, g⟩

/-- The attacker action keys of `ATTACKER_ACTIONS`, with their targets
(the `else` branch of `resolve_attacker_action` keeps unknown keys). -/
inductive AAction where
  | recon (node : String)
  | social
  | recruit
  | exploit (target : String)
  | lateral (src dst : String)
  | exfiltrate (node : String)
  | harden (node : String)
  | unknown (key : String)
deriving Repr, DecidableEq

/-- The defender action keys of `DEFENDER_ACTIONS`. -/
inductive DAction where
  | patch (node : String)
  | monitor
  | awareness
  | isolate (node : String)
  | honeypot (node : String)
  | forensic
  | unknown (key : String)
deriving Repr, DecidableEq

/-- The dispatch on the action key inside `resolve_attacker_action`. -/
def attacker_dispatch (a : AAction) (att : Attacker) (dfn : Defender)
    (nodes : Registry) (g : Rng) : Option AttOut :=
  match a with
  | .recon node => act_recon att dfn nodes node g
  | .social => act_social att dfn nodes g
  | .recruit =>
    let (msg, det, att') := act_recruit att
    some ⟨msg, det, att', dfn, nodes, g⟩
  | .exploit target => act_exploit att dfn nodes target g
  | .lateral src dst => act_lateral att dfn nodes src dst g
  | .exfiltrate node => act_exfiltrate att dfn nodes node g
  | .harden node =>
    let (msg, det, att') := act_harden att node
    some ⟨msg, det, att', dfn, nodes, g⟩
  | .unknown key => some ⟨.unknownAttacker key, false, att, dfn, nodes, g⟩

/-- Source `resolve_attacker_action(key, target, att, dfn, nodes)`: dispatch, then
the detection pulse `monitoring = min(3.0, monitoring + 0.1)` when the
action reported `detected=True`. -/
def resolve_attacker_action (a : AAction) (att : Attacker) (dfn : Defender)
    (nodes : Registry) (g : Rng) : Option AttOut :=
  match attacker_dispatch a att dfn nodes g with
  | none => none
  | some o =>
    if o.det then
      some { o with dfn := { o.dfn with monitoring := min 3 (o.dfn.monitoring + 0.1) } }
    else
      some o

/-- Source `resolve_defender_action(key, target, att, dfn, nodes)`. -/
def resolve_defender_action (d : DAction) (att : Attacker) (dfn : Defender)
    (nodes : Registry) (g : Rng) : Option DefOut :=
  match d with
  | .patch node => def_patch dfn nodes node att g
  | .monitor => some (def_monitor dfn att nodes g)
  | .awareness => some (def_awareness dfn att nodes g)
  | .isolate node => def_isolate dfn nodes node att g
  | .honeypot node => some (def_honeypot dfn node att nodes g)
  | .forensic => def_forensic dfn att nodes g
  | .unknown key => some ⟨.unknownDefender key, att, dfn, nodes, g⟩

/-- Either faction's action. -/
inductive GameAction where
  | atk (a : AAction)
  | dfd (d : DAction)
deriving Repr, DecidableEq

/-- The complete mutable game state (registry, both factions, rng). -/
structure GameState where
  att : Attacker
  dfn : Defender
  nodes : Registry
  rng : Rng

/-- The fresh state built by `main()`: `deep_copy_nodes()`, `Attacker()`,
`Defender()`, and the seeded random stream. -/
def GameState.init (stream : ℕ → ℚ) : GameState :=
  ⟨Attacker.init, Defender.init, BASE_NODES, ⟨stream, 0⟩⟩

/-- Resolve one action of either faction: the message, the reported
detection flag (always `false` for defender actions, which do not report
one), and the successor state. -/
def resolve (a : GameAction) (s : GameState) : Option (Message × Bool × GameState) :=
  match a with
  | .atk a =>
    match resolve_attacker_action a s.att s.dfn s.nodes s.rng with
    | none => none
    | some o => some (o.msg, o.det, ⟨o.att, o.dfn, o.nodes, o.rng⟩)
  | .dfd d =>
    match resolve_defender_action d s.att s.dfn s.nodes s.rng with
    | none => none
    | some o => some (o.msg, false, ⟨o.att, o.dfn, o.nodes, o.rng⟩)

/-- The flag/set synchronisation invariant of the spec: a registry node's
`is_compromised` flag holds exactly when its name is in the attacker's
`compromised` set. -/
def SyncInv (compromised : List String) (nodes : Registry) : Prop :=
  ∀ p ∈ nodes, p.2.is_compromised = true ↔ p.1 ∈ compromised

instance (compromised : List String) (nodes : Registry) :
    Decidable (SyncInv compromised nodes) := by
  unfold SyncInv; infer_instance

/-- The numeric bounds of the spec's monotonicity properties: monitoring in
`[1, 3]`, patch levels at most 10, exposures in `[0, 1]`. -/
def EngineBounds (s : GameState) : Prop :=
  1 ≤ s.dfn.monitoring ∧ s.dfn.monitoring ≤ 3 ∧
  (∀ p ∈ s.dfn.patch_level, p.2 ≤ 10) ∧
  (∀ p ∈ s.nodes, 0 ≤ p.2.exposure ∧ p.2.exposure ≤ 1)

/-- Node payoff values are non-negative (true of `BASE_NODES`; values are
never mutated). -/
def ValuesNonneg (nodes : Registry) : Prop :=
  ∀ p ∈ nodes, 0 ≤ p.2.value

/-- All draws of a random stream are non-negative (true of
`random.random()`, which draws from `[0, 1)`). -/
def StreamNonneg (g : Rng) : Prop :=
  ∀ n, 0 ≤ g.stream n

section HelperLemmas

lemma lookupNode_mem {nodes : Registry} {k : String} {v : Node}
    (h : lookupNode nodes k = some v) : (k, v) ∈ nodes := by
  induction nodes with
  | nil => simp [lookupNode] at h
  | cons hd tl ih =>
    obtain ⟨k', v'⟩ := hd
    simp only [lookupNode] at h
    split at h
    · next heq =>
      cases h
      simp [heq]
    · exact List.mem_cons_of_mem _ (ih h)

lemma mem_updateNode {nodes : Registry} {k : String} {f : Node → Node} {p}
    (h : p ∈ updateNode nodes k f) :
    ∃ q ∈ nodes, p = if q.1 = k then (q.1, f q.2) else q := by
  unfold updateNode at h
  obtain ⟨q, hq, rfl⟩ := List.mem_map.mp h
  exact ⟨q, hq, rfl⟩

/-- A per-node property is preserved by `updateNode` when `f` preserves it. -/
lemma updateNode_pres {nodes : Registry} {k : String} {f : Node → Node}
    (P : Node → Prop) (hP : ∀ n, P n → P (f n))
    (h : ∀ p ∈ nodes, P p.2) : ∀ p ∈ updateNode nodes k f, P p.2 := by
  intro p hp
  obtain ⟨q, hq, rfl⟩ := mem_updateNode hp
  split
  · exact hP _ (h q hq)
  · exact h q hq

lemma mem_setPatch {pl : List (String × ℤ)} {k : String} {v : ℤ} {p}
    (h : p ∈ setPatch pl k v) : p.2 = v ∨ p ∈ pl := by
  unfold setPatch at h
  split at h
  · obtain ⟨q, hq, rfl⟩ := List.mem_map.mp h
    split
    · exact Or.inl rfl
    · exact Or.inr hq
  · rcases List.mem_append.mp h with hl | hr
    · exact Or.inr hl
    · simp at hr
      exact Or.inl (by simp [hr])

lemma mem_setAdd {s : List String} {x y : String} :
    y ∈ setAdd s x ↔ y ∈ s ∨ y = x := by
  unfold setAdd
  split
  · next hx =>
    constructor
    · exact Or.inl
    · rintro (h | rfl) <;> [exact h; exact hx]
  · simp [List.mem_append]

lemma mem_discard {s : List String} {x y : String} :
    y ∈ setDiscard s x ↔ y ∈ s ∧ y ≠ x := by
  unfold setDiscard
  simp [List.mem_filter]

/-- Compromising node `k` (flag plus set membership together, as in
`act_social` / `act_exploit` / `act_lateral`) preserves the invariant. -/
lemma SyncInv.compromise {compromised : List String} {nodes : Registry}
    (k : String) (h : SyncInv compromised nodes) :
    SyncInv (setAdd compromised k)
      (updateNode nodes k (fun n => { n with is_compromised := true })) := by
  intro p hp
  obtain ⟨q, hq, rfl⟩ := mem_updateNode hp
  split
  · next heq =>
    simp only [heq, mem_setAdd]
    simp
  · next hne =>
    rw [mem_setAdd]
    constructor
    · intro hf
      exact Or.inl ((h q hq).mp hf)
    · rintro (hin | rfl)
      · exact (h q hq).mpr hin
      · exact absurd rfl hne

/-- Evicting node `k` (clearing the flag and discarding the set membership
together, as in `def_forensic`) preserves the invariant. -/
lemma SyncInv.evict {compromised : List String} {nodes : Registry}
    (k : String) (h : SyncInv compromised nodes) :
    SyncInv (setDiscard compromised k)
      (updateNode nodes k (fun n => { n with is_compromised := false })) := by
  intro p hp
  obtain ⟨q, hq, rfl⟩ := mem_updateNode hp
  split
  · next heq =>
    simp only [heq, mem_discard]
    simp
  · next hne =>
    rw [mem_discard]
    constructor
    · intro hf
      exact ⟨(h q hq).mp hf, hne⟩
    · rintro ⟨hin, _⟩
      exact (h q hq).mpr hin

lemma evictNodes_syncInv :
    ∀ (removed : List String) (nodes : Registry) (compromised : List String)
      (nodes' : Registry) (compromised' : List String),
      SyncInv compromised nodes →
      evictNodes removed nodes compromised = some (nodes', compromised') →
      SyncInv compromised' nodes' := by
  intro removed
  induction removed with
  | nil =>
    intro nodes compromised nodes' compromised' h heq
    simp only [evictNodes] at heq
    cases heq
    exact h
  | cons hd tl ih =>
    intro nodes compromised nodes' compromised' h heq
    simp only [evictNodes] at heq
    split at heq
    · exact absurd heq (by simp)
    · exact ih _ _ _ _ (h.evict hd) heq

/-- A per-node property that ignores the compromise flag survives the
eviction loop. -/
lemma evictNodes_pres (P : Node → Prop)
    (hP : ∀ n, P n → P { n with is_compromised := false }) :
    ∀ (removed : List String) (nodes : Registry) (compromised : List String)
      (nodes' : Registry) (compromised' : List String),
      (∀ p ∈ nodes, P p.2) →
      evictNodes removed nodes compromised = some (nodes', compromised') →
      ∀ p ∈ nodes', P p.2 := by
  intro removed
  induction removed with
  | nil =>
    intro nodes compromised nodes' compromised' h heq
    simp only [evictNodes] at heq
    cases heq
    exact h
  | cons hd tl ih =>
    intro nodes compromised nodes' compromised' h heq
    simp only [evictNodes] at heq
    split at heq
    · exact absurd heq (by simp)
    · exact ih _ _ _ _ (updateNode_pres P hP h) heq

end HelperLemmas

/-- An all-zeros draw stream (every roll lands below any positive
threshold). -/
def zeroStream : ℕ → ℚ := fun _ => 0

/-- Iterated `act_recruit` from the starting attacker state. -/
def recruitIter : ℕ → Attacker
  | 0 => Attacker.init
  | n + 1 => (act_recruit (recruitIter n)).2.2

/-- Guard for the amended synchronisation invariant: the action is not a
`def_isolate` aimed at a node whose registry flag is currently set. -/
def isolateSafe (a : GameAction) (s : GameState) : Prop :=
  match a with
  | .dfd (.isolate n) =>
    ∀ nd, lookupNode s.nodes n = some nd → nd.is_compromised = false
  | _ => True

/-- A game state whose `CorpLAN` node is compromised consistently (flag set
and name in the attacker's set). -/
def corpLanState : GameState :=
  ⟨{ Attacker.init with compromised := ["CorpLAN"] }, Defender.init,
   updateNode BASE_NODES "CorpLAN" (fun n => { n with is_compromised := true }),
   ⟨zeroStream, 0⟩⟩

/-- The state the engine reaches by isolating `CorpLAN` in `corpLanState`:
flag cleared, attacker set membership left behind. -/
def corpLanAfterIsolate : GameState :=
  ⟨{ Attacker.init with compromised := ["CorpLAN"] },
   { Defender.init with budget := 48, isolated := ["CorpLAN"] },
   updateNode BASE_NODES "CorpLAN" (fun n => { n with is_compromised := false }),
   ⟨zeroStream, 0⟩⟩

/-- A registry with the `DMZ` flag set, for exercising `def_isolate`
directly. -/
def dmzNodes : Registry :=
  updateNode BASE_NODES "DMZ" (fun n => { n with is_compromised := true })

/-- The attacker holding `DMZ`, matching `dmzNodes`. -/
def dmzAttacker : Attacker := { Attacker.init with compromised := ["DMZ"] }

/-- C7: starting from `funds=50, members=1, skill=5.0`, five `act_recruit`
invocations succeed exactly on the first three (funds 50→35→20→5), fail on
the fourth and fifth (5 < 15), and leave `members=4`, `skill=8.0`; resolving
a recruit consumes no random draw for any state. -/
theorem recruit_five_times :
    (act_recruit (recruitIter 0)).1 = Message.recruitSuccess ∧
    (act_recruit (recruitIter 1)).1 = Message.recruitSuccess ∧
    (act_recruit (recruitIter 2)).1 = Message.recruitSuccess ∧
    (act_recruit (recruitIter 3)).1 = Message.recruitFailed ∧
    (act_recruit (recruitIter 4)).1 = Message.recruitFailed ∧
    (recruitIter 0).funds = 50 ∧ (recruitIter 1).funds = 35 ∧
    (recruitIter 2).funds = 20 ∧ (recruitIter 3).funds = 5 ∧
    (recruitIter 5).funds = 5 ∧ (recruitIter 5).members = 4 ∧
    (recruitIter 5).skill = 8 ∧
    (∀ s : GameState, resolve (GameAction.atk AAction.recruit) s =
      some ((act_recruit s.att).1, false,
        ⟨(act_recruit s.att).2.2, s.dfn, s.nodes, s.rng⟩)) := by
  refine ⟨by decide, by decide, by decide, by decide, by decide, by decide,
    by decide, by decide, by decide, by decide, by decide,
    by norm_num [recruitIter, act_recruit, Attacker.init], ?_⟩
  intro s
  by_cases hf : s.att.funds ≥ 15 <;>
    simp [resolve, resolve_attacker_action, attacker_dispatch, act_recruit, hf]

/-- C5: `chance_success` computes
`p = base × (1 + skill/10) × modifier × max(0, 1 − patch/12)` clamped to
`[0, 0.95]` and succeeds exactly when the draw is strictly below `p`; from
the starting state, `exploit("Firewall")` runs with effective success
probability `0.30` and detection probability `0.135`. -/
theorem chance_success_formula_firewall :
    (∀ (base skill : ℚ) (patch : ℤ) (modifier : ℚ) (g : Rng),
      chance_success base skill patch modifier g =
        (⟨decide (g.stream g.idx <
            max 0 (min 0.95 (base * (1 + skill / 10) * modifier *
              max 0 (1 - (patch : ℚ) / 12)))),
          max 0 (min 0.95 (base * (1 + skill / 10) * modifier *
            max 0 (1 - (patch : ℚ) / 12))),
          g.stream g.idx⟩, ⟨g.stream, g.idx + 1⟩)) ∧
    (∀ g : Rng,
      (act_exploit Attacker.init Defender.init BASE_NODES "Firewall" g).map
          AttOut.msg =
        some (Message.exploitMsg "Firewall" (decide (g.stream g.idx < 0.3)) 0.3
          (decide (g.stream (g.idx + 1) < 0.135)) 0.135 false)) := by
  constructor
  · intro base skill patch modifier g
    rfl
  · intro g
    have hb : ∀ r : ℚ, (decide (r < (0:ℚ)) || (decide (r < 19/20) && decide (r < 3/10))) = decide (r < 3/10) := by
      intro r
      by_cases h : r < 3/10
      · simp [h, lt_trans h (by norm_num : (3/10:ℚ) < 19/20)]
      · have h0 : ¬ r < 0 := fun hc => h (by linarith)
        simp [h, h0]
    have hd : ∀ r : ℚ, (decide (r < (0:ℚ)) || (decide (r < 99/100) && decide (r < 27/200))) = decide (r < 27/200) := by
      intro r
      by_cases h : r < 27/200
      · simp [h, lt_trans h (by norm_num : (27/200:ℚ) < 99/100)]
      · have h0 : ¬ r < 0 := fun hc => h (by linarith)
        simp [h, h0]
    simp [act_exploit, Attacker.init, Defender.init, BASE_NODES,
      chance_success, detection_check, Rng.random, lookupNode, getPatch, TOPOLOGY]
    norm_num
    split <;> exact ⟨_, rfl, by simp [hb, hd]⟩

/-- C3: every attacker-action precondition or resource failure (exploit on
an isolated target, lateral with a non-compromised source or non-adjacent
destination, exfiltrate or harden on a non-compromised node, recruit with
funds < 15) returns a failure message with `detected=false`, mutates no
state and consumes no random draw. -/
theorem precondition_failures_inert (att : Attacker) (dfn : Defender)
    (nodes : Registry) (g : Rng) :
    (∀ t, t ∈ dfn.isolated →
      act_exploit att dfn nodes t g =
        some ⟨Message.exploitAborted t, false, att, dfn, nodes, g⟩) ∧
    (∀ src dst, src ∉ att.compromised →
      act_lateral att dfn nodes src dst g =
        some ⟨Message.lateralFailedSource src dst, false, att, dfn, nodes, g⟩) ∧
    (∀ src dst, src ∈ att.compromised → dst ∉ TOPOLOGY src →
      act_lateral att dfn nodes src dst g =
        some ⟨Message.lateralFailedAdjacent src dst, false, att, dfn, nodes, g⟩) ∧
    (∀ n, n ∉ att.compromised →
      act_exfiltrate att dfn nodes n g =
        some ⟨Message.exfilFailed n, false, att, dfn, nodes, g⟩) ∧
    (∀ n, n ∉ att.compromised →
      act_harden att n = (Message.hardenFailed n, false, att)) ∧
    (att.funds < 15 →
      act_recruit att = (Message.recruitFailed, false, att)) := by
  refine ⟨?_, ?_, ?_, ?_, ?_, ?_⟩
  · intro t ht
    simp [act_exploit, ht]
  · intro src dst hs
    simp [act_lateral, hs]
  · intro src dst hs hd
    simp [act_lateral, hs, hd]
  · intro n hn
    simp [act_exfiltrate, hn]
  · intro n hn
    simp [act_harden, hn]
  · intro hf
    simp [act_recruit, not_le.mpr hf]

/-- Witness for `precondition_failures_inert`: concrete precondition
failures taken on explicit states. -/
theorem precondition_failures_inert_witness :
    act_exploit dmzAttacker { Defender.init with isolated := ["SIEM"] }
        dmzNodes "SIEM" ⟨zeroStream, 0⟩ =
      some ⟨Message.exploitAborted "SIEM", false, dmzAttacker,
        { Defender.init with isolated := ["SIEM"] }, dmzNodes, ⟨zeroStream, 0⟩⟩ ∧
    act_lateral dmzAttacker Defender.init dmzNodes "Admin" "CorpLAN" ⟨zeroStream, 0⟩ =
      some ⟨Message.lateralFailedSource "Admin" "CorpLAN", false, dmzAttacker,
        Defender.init, dmzNodes, ⟨zeroStream, 0⟩⟩ ∧
    act_lateral dmzAttacker Defender.init dmzNodes "DMZ" "Admin" ⟨zeroStream, 0⟩ =
      some ⟨Message.lateralFailedAdjacent "DMZ" "Admin", false, dmzAttacker,
        Defender.init, dmzNodes, ⟨zeroStream, 0⟩⟩ ∧
    act_exfiltrate dmzAttacker Defender.init dmzNodes "Admin" ⟨zeroStream, 0⟩ =
      some ⟨Message.exfilFailed "Admin", false, dmzAttacker,
        Defender.init, dmzNodes, ⟨zeroStream, 0⟩⟩ ∧
    act_harden dmzAttacker "Admin" = (Message.hardenFailed "Admin", false, dmzAttacker) ∧
    act_recruit { Attacker.init with funds := 5 } =
      (Message.recruitFailed, false, { Attacker.init with funds := 5 }) := by
  have h1 := precondition_failures_inert dmzAttacker
    { Defender.init with isolated := ["SIEM"] } dmzNodes ⟨zeroStream, 0⟩
  have h2 := precondition_failures_inert dmzAttacker Defender.init dmzNodes
    ⟨zeroStream, 0⟩
  have h3 := precondition_failures_inert { Attacker.init with funds := 5 }
    Defender.init dmzNodes ⟨zeroStream, 0⟩
  exact ⟨h1.1 "SIEM" (by decide),
    h2.2.1 "Admin" "CorpLAN" (by decide),
    h2.2.2.1 "DMZ" "Admin" (by decide) (by simp [TOPOLOGY]),
    h2.2.2.2.1 "Admin" (by decide),
    h2.2.2.2.2.1 "Admin" (by decide),
    h3.2.2.2.2.2 (by decide)⟩

section ActionShapeLemmas

variable {att : Attacker} {dfn : Defender} {nodes : Registry} {g : Rng} {o : AttOut}

/-- Everything `act_recon` can do: attacker and defender untouched, registry
either untouched or with one exposure bumped. -/
lemma act_recon_shape {node : String}
    (h : act_recon att dfn nodes node g = some o) :
    o.att = att ∧ o.dfn = dfn ∧ o.rng = ⟨g.stream, g.idx + 2⟩ ∧
    (o.nodes = nodes ∨
      o.nodes = updateNode nodes node
        (fun n => { n with exposure := min 1 (n.exposure + 0.1) })) := by
  simp only [act_recon, chance_success, detection_check, Rng.random] at h
  split at h
  · split at h
    · exact absurd h (by simp)
    · cases h; exact ⟨rfl, rfl, rfl, Or.inr rfl⟩
  · cases h; exact ⟨rfl, rfl, rfl, Or.inl rfl⟩

/-- Everything `act_social` can do: either no mutation, or `"Insider"` is
compromised in flag and set together. -/
lemma act_social_shape (h : act_social att dfn nodes g = some o) :
    o.dfn = dfn ∧ o.rng = ⟨g.stream, g.idx + 2⟩ ∧
    ((o.att = att ∧ o.nodes = nodes) ∨
      (o.att = { att with compromised := setAdd att.compromised "Insider" } ∧
       o.nodes = updateNode nodes "Insider"
         (fun n => { n with is_compromised := true }))) := by
  simp only [act_social, chance_success, detection_check, Rng.random] at h
  split at h
  · split at h
    · exact absurd h (by simp)
    · cases h; exact ⟨rfl, rfl, Or.inr ⟨rfl, rfl⟩⟩
  · cases h; exact ⟨rfl, rfl, Or.inl ⟨rfl, rfl⟩⟩

/-- Everything `act_exploit` can do: isolated-abort or roll-failure leave
all state untouched; success compromises the target in flag and set
together. -/
lemma act_exploit_shape {target : String}
    (h : act_exploit att dfn nodes target g = some o) :
    o.dfn = dfn ∧
    ((o.att = att ∧ o.nodes = nodes) ∨
      (o.att = { att with compromised := setAdd att.compromised target } ∧
       o.nodes = updateNode nodes target
         (fun n => { n with is_compromised := true }))) := by
  simp only [act_exploit, chance_success, detection_check, Rng.random] at h
  split at h
  · cases h; exact ⟨rfl, Or.inl ⟨rfl, rfl⟩⟩
  · split at h
    · exact absurd h (by simp)
    · split at h <;> split at h <;>
        first
        | (cases h; exact ⟨rfl, Or.inr ⟨rfl, rfl⟩⟩)
        | (cases h; exact ⟨rfl, Or.inl ⟨rfl, rfl⟩⟩)

/-- Everything `act_lateral` can do: precondition or roll failures leave
all state untouched; success compromises the destination in flag and set
together. -/
lemma act_lateral_shape {src dst : String}
    (h : act_lateral att dfn nodes src dst g = some o) :
    o.dfn = dfn ∧
    ((o.att = att ∧ o.nodes = nodes) ∨
      (o.att = { att with compromised := setAdd att.compromised dst } ∧
       o.nodes = updateNode nodes dst
         (fun n => { n with is_compromised := true }))) := by
  simp only [act_lateral, chance_success, detection_check, Rng.random] at h
  split at h
  · cases h; exact ⟨rfl, Or.inl ⟨rfl, rfl⟩⟩
  · split at h
    · cases h; exact ⟨rfl, Or.inl ⟨rfl, rfl⟩⟩
    · split at h
      · exact absurd h (by simp)
      · split at h
        · cases h; exact ⟨rfl, Or.inr ⟨rfl, rfl⟩⟩
        · cases h; exact ⟨rfl, Or.inl ⟨rfl, rfl⟩⟩

/-- Everything `act_exfiltrate` can do: registry and defender untouched,
compromised set untouched; on success the score grows by the truncated
value share and funds by half of it. -/
lemma act_exfiltrate_shape {node : String}
    (h : act_exfiltrate att dfn nodes node g = some o) :
    o.dfn = dfn ∧ o.nodes = nodes ∧
    (o.att = att ∨
      ∃ nd, lookupNode nodes node = some nd ∧
        o.att = { att with
          exfiltrated_value := att.exfiltrated_value +
            pytrunc ((nd.value : ℚ) * (0.5 + (1 - 0.5) * g.stream (g.idx + 2))),
          funds := att.funds +
            pytrunc ((pytrunc ((nd.value : ℚ) * (0.5 + (1 - 0.5) * g.stream (g.idx + 2))) : ℚ) * 0.5) }) := by
  simp only [act_exfiltrate, chance_success, detection_check, Rng.random,
    Rng.uniform] at h
  split at h
  · cases h; exact ⟨rfl, rfl, Or.inl rfl⟩
  · split at h
    · exact absurd h (by simp)
    · next nd hnd =>
      split at h
      · cases h
        exact ⟨rfl, rfl, Or.inr ⟨nd, hnd, rfl⟩⟩
      · cases h; exact ⟨rfl, rfl, Or.inl rfl⟩

end ActionShapeLemmas

section DefenderShapeLemmas

variable {att : Attacker} {dfn : Defender} {nodes : Registry} {g : Rng} {o : DefOut}

/-- Everything `def_patch` can do. -/
lemma def_patch_shape {node : String}
    (h : def_patch dfn nodes node att g = some o) :
    o.att = att ∧ o.rng = g ∧
    ((o.dfn = dfn ∧ o.nodes = nodes) ∨
      (o.dfn = { dfn with
                  budget := dfn.budget - 8,
                  patch_level := setPatch dfn.patch_level node
                    (min 10 (getPatch dfn.patch_level node + 2)) } ∧
        ∃ nd, lookupNode nodes node = some nd ∧
          o.nodes = updateNode nodes node
            (fun n => { n with exposure := max 0.05 (nd.exposure - 0.15) }))) := by
  simp only [def_patch] at h
  split at h
  · cases h; exact ⟨rfl, rfl, Or.inl ⟨rfl, rfl⟩⟩
  · split at h
    · exact absurd h (by simp)
    · next nd hnd =>
      cases h
      exact ⟨rfl, rfl, Or.inr ⟨rfl, nd, hnd, rfl⟩⟩

/-- Everything `def_monitor` can do. -/
lemma def_monitor_shape :
    def_monitor dfn att nodes g = ⟨.monitorFailed, att, dfn, nodes, g⟩ ∨
    def_monitor dfn att nodes g =
      ⟨.monitorMsg (min 3 (dfn.monitoring + 0.3)), att,
        { dfn with
           budget := dfn.budget - 6,
           monitoring := min 3 (dfn.monitoring + 0.3) }, nodes, g⟩ := by
  by_cases hb : dfn.budget < 6
  · exact Or.inl (by simp [def_monitor, hb])
  · exact Or.inr (by simp [def_monitor, hb])

/-- Everything `def_awareness` can do. -/
lemma def_awareness_shape :
    def_awareness dfn att nodes g = ⟨.awarenessFailed, att, dfn, nodes, g⟩ ∨
    def_awareness dfn att nodes g =
      ⟨.awarenessMsg (max 0.5 (dfn.awareness - 0.2)), att,
        { dfn with
           budget := dfn.budget - 10,
           awareness := max 0.5 (dfn.awareness - 0.2) }, nodes, g⟩ := by
  by_cases hb : dfn.budget < 10
  · exact Or.inl (by simp [def_awareness, hb])
  · exact Or.inr (by simp [def_awareness, hb])

/-- Everything `def_isolate` can do: on sufficient budget it adds the node
to the isolated set and clears only the registry flag, leaving the
attacker state untouched. -/
lemma def_isolate_shape {node : String}
    (h : def_isolate dfn nodes node att g = some o) :
    o.att = att ∧ o.rng = g ∧
    ((o.dfn = dfn ∧ o.nodes = nodes) ∨
      ∃ nd, lookupNode nodes node = some nd ∧
        o.dfn = { dfn with
                   budget := dfn.budget - 12,
                   isolated := setAdd dfn.isolated node } ∧
        o.nodes = (if nd.is_compromised then
            updateNode nodes node (fun n => { n with is_compromised := false })
          else nodes)) := by
  simp only [def_isolate] at h
  split at h
  · cases h; exact ⟨rfl, rfl, Or.inl ⟨rfl, rfl⟩⟩
  · split at h
    · exact absurd h (by simp)
    · next nd hnd =>
      split at h
      · cases h
        refine ⟨rfl, rfl, Or.inr ⟨nd, hnd, rfl, ?_⟩⟩
        rw [if_pos]
        assumption
      · cases h
        refine ⟨rfl, rfl, Or.inr ⟨nd, hnd, rfl, ?_⟩⟩
        rw [if_neg]
        assumption

/-- Everything `def_honeypot` can do. -/
lemma def_honeypot_shape {node : String} :
    def_honeypot dfn node att nodes g = ⟨.honeypotFailed, att, dfn, nodes, g⟩ ∨
    def_honeypot dfn node att nodes g =
      ⟨.honeypotMsg node, att,
        { dfn with
           budget := dfn.budget - 7,
           honeypots := setAdd dfn.honeypots node }, nodes, g⟩ := by
  by_cases hb : dfn.budget < 7
  · exact Or.inl (by simp [def_honeypot, hb])
  · exact Or.inr (by simp [def_honeypot, hb])

/-- Everything `def_forensic` can do: budget failure or an unsuccessful
roll leave the shared state untouched (bar the budget spend); a successful
roll evicts a prefix of the compromised list, flag and membership together,
and applies the floored funds/skill penalties. -/
lemma def_forensic_shape (h : def_forensic dfn att nodes g = some o) :
    (o.att = att ∧ o.dfn = dfn ∧ o.nodes = nodes) ∨
    (o.att = att ∧ o.dfn = { dfn with budget := dfn.budget - 10 } ∧ o.nodes = nodes) ∨
    (∃ nodes' compromised',
      evictNodes (att.compromised.take (max 1 (att.compromised.length / 2)))
        nodes att.compromised = some (nodes', compromised') ∧
      o.att = { att with
                 compromised := compromised',
                 funds := max 0 (att.funds - 10),
                 skill := max 1 (att.skill - 0.5) } ∧
      o.dfn = { dfn with budget := dfn.budget - 10 } ∧ o.nodes = nodes') := by
  simp only [def_forensic] at h
  split at h
  · cases h; exact Or.inl ⟨rfl, rfl, rfl⟩
  · split at h
    · split at h
      · exact absurd h (by simp)
      · next ns cs hp =>
        cases h
        exact Or.inr (Or.inr ⟨ns, cs, hp, rfl, rfl, rfl⟩)
    · cases h; exact Or.inr (Or.inl ⟨rfl, rfl, rfl⟩)

end DefenderShapeLemmas

/-- Source `resolve_attacker_action` is the dispatched action, with the
monitoring pulse possibly applied on top. -/
lemma resolve_attacker_action_shape {a : AAction} {att : Attacker}
    {dfn : Defender} {nodes : Registry} {g : Rng} {o : AttOut}
    (h : resolve_attacker_action a att dfn nodes g = some o) :
    ∃ o', attacker_dispatch a att dfn nodes g = some o' ∧
      o.msg = o'.msg ∧ o.det = o'.det ∧ o.att = o'.att ∧
      o.nodes = o'.nodes ∧ o.rng = o'.rng ∧
      (o.dfn = o'.dfn ∨
        o.dfn = { o'.dfn with monitoring := min 3 (o'.dfn.monitoring + 0.1) }) := by
  simp only [resolve_attacker_action] at h
  split at h
  · exact absurd h (by simp)
  · rename_i u hu
    split at h
    · cases h
      exact ⟨u, hu, rfl, rfl, rfl, rfl, rfl, Or.inr rfl⟩
    · cases h
      exact ⟨o, hu, rfl, rfl, rfl, rfl, rfl, Or.inl rfl⟩

/-- The attacker dispatch never touches the defender's isolated set,
patch levels, budget, awareness or honeypots. -/
lemma attacker_dispatch_dfn {a : AAction} {att : Attacker} {dfn : Defender}
    {nodes : Registry} {g : Rng} {o : AttOut}
    (h : attacker_dispatch a att dfn nodes g = some o) : o.dfn = dfn := by
  cases a with
  | recon node => exact (act_recon_shape h).2.1
  | social => exact (act_social_shape h).1
  | recruit =>
    simp only [attacker_dispatch] at h
    cases h
    rfl
  | exploit target => exact (act_exploit_shape h).1
  | lateral src dst => exact (act_lateral_shape h).1
  | exfiltrate node => exact (act_exfiltrate_shape h).1
  | harden node =>
    simp only [attacker_dispatch] at h
    cases h
    rfl
  | unknown key =>
    simp only [attacker_dispatch] at h
    cases h
    rfl

/-- C10: `DefenderState.isolated` is monotone: every resolved action keeps
each already-isolated node isolated, and any action other than
`def_isolate` leaves the isolated set exactly unchanged (no action removes
isolation). -/
theorem isolated_monotone (a : GameAction) (s : GameState) (m : Message)
    (d : Bool) (s2 : GameState) (hres : resolve a s = some (m, d, s2)) :
    (∀ x ∈ s.dfn.isolated, x ∈ s2.dfn.isolated) ∧
    ((∀ node, a ≠ GameAction.dfd (DAction.isolate node)) →
      s2.dfn.isolated = s.dfn.isolated) := by
  cases a with
  | atk aa =>
    simp only [resolve] at hres
    split at hres
    · exact absurd hres (by simp)
    · rename_i o ho
      cases hres
      obtain ⟨o', ho', _, _, _, _, _, hdfn⟩ := resolve_attacker_action_shape ho
      have hd : o'.dfn = s.dfn := attacker_dispatch_dfn ho'
      have hiso : o.dfn.isolated = s.dfn.isolated := by
        rcases hdfn with h | h <;> rw [h, hd]
      exact ⟨fun x hx => by rw [hiso]; exact hx, fun _ => hiso⟩
  | dfd da =>
    simp only [resolve] at hres
    split at hres
    · exact absurd hres (by simp)
    · rename_i o ho
      cases hres
      cases da with
      | patch node =>
        obtain ⟨-, -, hsh⟩ := def_patch_shape ho
        have hiso : o.dfn.isolated = s.dfn.isolated := by
          rcases hsh with ⟨h, -⟩ | ⟨h, -⟩ <;> rw [h]
        exact ⟨fun x hx => by rw [hiso]; exact hx, fun _ => hiso⟩
      | monitor =>
        simp only [resolve_defender_action] at ho
        cases ho
        have hiso : (def_monitor s.dfn s.att s.nodes s.rng).dfn.isolated = s.dfn.isolated := by
          rcases (@def_monitor_shape s.att s.dfn s.nodes s.rng) with h | h <;> rw [h]
        exact ⟨fun x hx => by rw [hiso]; exact hx, fun _ => hiso⟩
      | awareness =>
        simp only [resolve_defender_action] at ho
        cases ho
        have hiso : (def_awareness s.dfn s.att s.nodes s.rng).dfn.isolated = s.dfn.isolated := by
          rcases (@def_awareness_shape s.att s.dfn s.nodes s.rng) with h | h <;> rw [h]
        exact ⟨fun x hx => by rw [hiso]; exact hx, fun _ => hiso⟩
      | isolate node =>
        obtain ⟨-, -, hsh⟩ := def_isolate_shape ho
        constructor
        · intro x hx
          rcases hsh with ⟨h, -⟩ | ⟨nd, -, h, -⟩
          · rw [h]; exact hx
          · rw [h]
            exact mem_setAdd.mpr (Or.inl hx)
        · intro hne
          exact absurd rfl (hne node)
      | honeypot node =>
        simp only [resolve_defender_action] at ho
        cases ho
        have hiso : (def_honeypot s.dfn node s.att s.nodes s.rng).dfn.isolated = s.dfn.isolated := by
          rcases (@def_honeypot_shape s.att s.dfn s.nodes s.rng node) with h | h <;> rw [h]
        exact ⟨fun x hx => by rw [hiso]; exact hx, fun _ => hiso⟩
      | forensic =>
        obtain hsh := def_forensic_shape ho
        have hiso : o.dfn.isolated = s.dfn.isolated := by
          rcases hsh with ⟨-, h, -⟩ | ⟨-, h, -⟩ | ⟨ns, cs, -, -, h, -⟩ <;> rw [h]
        exact ⟨fun x hx => by rw [hiso]; exact hx, fun _ => hiso⟩
      | unknown key =>
        simp only [resolve_defender_action] at ho
        cases ho
        exact ⟨fun x hx => hx, fun _ => rfl⟩

/-- Witness for `isolated_monotone`: a concrete `def_monitor` resolution. -/
theorem isolated_monotone_witness :
    (∀ x ∈ (GameState.init zeroStream).dfn.isolated,
      x ∈ ({ att := Attacker.init,
             dfn := { Defender.init with budget := 54, monitoring := 1.3 },
             nodes := BASE_NODES, rng := ⟨zeroStream, 0⟩ } : GameState).dfn.isolated) ∧
    ((∀ node, GameAction.dfd DAction.monitor ≠ GameAction.dfd (DAction.isolate node)) →
      ({ att := Attacker.init,
         dfn := { Defender.init with budget := 54, monitoring := 1.3 },
         nodes := BASE_NODES, rng := ⟨zeroStream, 0⟩ } : GameState).dfn.isolated =
        (GameState.init zeroStream).dfn.isolated) := by
  refine isolated_monotone (GameAction.dfd DAction.monitor) (GameState.init zeroStream)
    (Message.monitorMsg 1.3) false _ ?_
  show resolve _ _ = _
  simp [resolve, resolve_defender_action, def_monitor, GameState.init,
    Defender.init, Attacker.init]
  norm_num
section IsolationIgnored

variable {att : Attacker} {dfn : Defender} {nodes : Registry} {g : Rng}

/-- Source `act_recon` never reads the isolated set. -/
lemma act_recon_ignores_isolated (node : String) (iso : List String) :
    act_recon att { dfn with isolated := iso } nodes node g =
      (act_recon att dfn nodes node g).map
        (fun o => { o with dfn := { o.dfn with isolated := iso } }) := by
  simp only [act_recon, chance_success, detection_check, Rng.random]
  split
  · split <;> rfl
  · rfl

/-- Source `act_social` never reads the isolated set. -/
lemma act_social_ignores_isolated (iso : List String) :
    act_social att { dfn with isolated := iso } nodes g =
      (act_social att dfn nodes g).map
        (fun o => { o with dfn := { o.dfn with isolated := iso } }) := by
  simp only [act_social, chance_success, detection_check, Rng.random]
  split
  · split <;> rfl
  · rfl

/-- Source `act_lateral` never reads the isolated set. -/
lemma act_lateral_ignores_isolated (src dst : String) (iso : List String) :
    act_lateral att { dfn with isolated := iso } nodes src dst g =
      (act_lateral att dfn nodes src dst g).map
        (fun o => { o with dfn := { o.dfn with isolated := iso } }) := by
  simp only [act_lateral, chance_success, detection_check, Rng.random]
  split
  · rfl
  · split
    · rfl
    · split
      · rfl
      · split <;> rfl

/-- Source `act_exfiltrate` never reads the isolated set. -/
lemma act_exfiltrate_ignores_isolated (node : String) (iso : List String) :
    act_exfiltrate att { dfn with isolated := iso } nodes node g =
      (act_exfiltrate att dfn nodes node g).map
        (fun o => { o with dfn := { o.dfn with isolated := iso } }) := by
  simp only [act_exfiltrate, chance_success, detection_check, Rng.random,
    Rng.uniform]
  split
  · rfl
  · split
    · rfl
    · split <;> rfl

end IsolationIgnored

/-- C9: isolation blocks only `act_exploit`: `act_recon`, `act_social`,
`act_lateral` and `act_exfiltrate` never consult the isolated set (their
result is unchanged under any change of `DefenderState.isolated`), and a
successful `act_social` on an isolated `"Insider"`, or a successful
`act_lateral` onto an isolated destination, still sets the node flag and
the attacker's set membership. -/
theorem isolation_only_blocks_exploit :
    (∀ (att : Attacker) (dfn : Defender) (nodes : Registry) (node : String)
        (g : Rng) (iso : List String),
      act_recon att { dfn with isolated := iso } nodes node g =
        (act_recon att dfn nodes node g).map
          (fun o => { o with dfn := { o.dfn with isolated := iso } })) ∧
    (∀ (att : Attacker) (dfn : Defender) (nodes : Registry) (g : Rng)
        (iso : List String),
      act_social att { dfn with isolated := iso } nodes g =
        (act_social att dfn nodes g).map
          (fun o => { o with dfn := { o.dfn with isolated := iso } })) ∧
    (∀ (att : Attacker) (dfn : Defender) (nodes : Registry) (src dst : String)
        (g : Rng) (iso : List String),
      act_lateral att { dfn with isolated := iso } nodes src dst g =
        (act_lateral att dfn nodes src dst g).map
          (fun o => { o with dfn := { o.dfn with isolated := iso } })) ∧
    (∀ (att : Attacker) (dfn : Defender) (nodes : Registry) (node : String)
        (g : Rng) (iso : List String),
      act_exfiltrate att { dfn with isolated := iso } nodes node g =
        (act_exfiltrate att dfn nodes node g).map
          (fun o => { o with dfn := { o.dfn with isolated := iso } })) ∧
    ((act_social Attacker.init { Defender.init with isolated := ["Insider"] }
        BASE_NODES ⟨zeroStream, 0⟩).map
          (fun o => (o.att.compromised, lookupNode o.nodes "Insider")) =
      some (["Insider"],
        some { value := 8, exposure := 0.50, is_compromised := true })) ∧
    ((act_lateral { Attacker.init with compromised := ["CorpLAN"] }
        { Defender.init with isolated := ["Admin"] } corpLanState.nodes
        "CorpLAN" "Admin" ⟨zeroStream, 0⟩).map
          (fun o => (o.att.compromised, lookupNode o.nodes "Admin")) =
      some (["CorpLAN", "Admin"],
        some { value := 30, exposure := 0.30, is_compromised := true })) := by
  refine ⟨fun att dfn nodes node g iso => act_recon_ignores_isolated node iso,
    fun att dfn nodes g iso => act_social_ignores_isolated iso,
    fun att dfn nodes src dst g iso => act_lateral_ignores_isolated src dst iso,
    fun att dfn nodes node g iso => act_exfiltrate_ignores_isolated node iso,
    ?_, ?_⟩
  · simp [act_social, Attacker.init, Defender.init, BASE_NODES, chance_success,
      detection_check, Rng.random, lookupNode, getPatch, setAdd, updateNode,
      zeroStream]
    norm_num
    simp [lookupNode]
  · simp [act_lateral, Attacker.init, Defender.init, corpLanState, BASE_NODES,
      chance_success, detection_check, Rng.random, lookupNode, getPatch,
      setAdd, updateNode, zeroStream, TOPOLOGY]
    norm_num
    simp [lookupNode]

/-- Counterexample to C2 as stated: isolating the compromised `DMZ` node
clears its registry flag but does NOT remove `"DMZ"` from the attacker's
compromised set (`def_isolate` never touches the attacker state). -/
theorem isolate_keeps_set_membership_cex :
    (def_isolate Defender.init dmzNodes "DMZ" dmzAttacker ⟨zeroStream, 0⟩).map
        (fun o => (o.att.compromised, lookupNode o.nodes "DMZ")) =
      some (["DMZ"],
        some { value := 10, exposure := 0.40, is_compromised := false }) := by
  rfl

/-- C2 (amended): `def_isolate` with sufficient budget on a compromised
node immediately clears that node's flag — while leaving the attacker's
compromised set untouched — and any subsequent `act_exploit` on an
isolated node fails with `detected=false`, mutating nothing and consuming
no random draw. -/
theorem isolate_clears_flag_and_blocks_exploit (dfn : Defender)
    (att : Attacker) (nodes : Registry) (node : String) (nd : Node) (g : Rng)
    (hb : ¬ dfn.budget < 12) (hlk : lookupNode nodes node = some nd)
    (hc : nd.is_compromised = true) :
    def_isolate dfn nodes node att g =
      some ⟨Message.isolateMsg node, att,
        { dfn with
           budget := dfn.budget - 12,
           isolated := setAdd dfn.isolated node },
        updateNode nodes node (fun n => { n with is_compromised := false }), g⟩ ∧
    (∀ (att2 : Attacker) (dfn2 : Defender) (nodes2 : Registry) (g2 : Rng),
      node ∈ dfn2.isolated →
      act_exploit att2 dfn2 nodes2 node g2 =
        some ⟨Message.exploitAborted node, false, att2, dfn2, nodes2, g2⟩) := by
  constructor
  · simp [def_isolate, hb, hlk, hc]
  · intro att2 dfn2 nodes2 g2 hiso
    simp [act_exploit, hiso]

/-- Witness for `isolate_clears_flag_and_blocks_exploit` on the concrete
`DMZ` scenario. -/
theorem isolate_clears_flag_and_blocks_exploit_witness :
    def_isolate Defender.init dmzNodes "DMZ" dmzAttacker ⟨zeroStream, 0⟩ =
      some ⟨Message.isolateMsg "DMZ", dmzAttacker,
        { Defender.init with budget := 48, isolated := ["DMZ"] },
        updateNode dmzNodes "DMZ" (fun n => { n with is_compromised := false }),
        ⟨zeroStream, 0⟩⟩ ∧
    act_exploit dmzAttacker { Defender.init with isolated := ["DMZ"] } dmzNodes
        "DMZ" ⟨zeroStream, 0⟩ =
      some ⟨Message.exploitAborted "DMZ", false, dmzAttacker,
        { Defender.init with isolated := ["DMZ"] }, dmzNodes, ⟨zeroStream, 0⟩⟩ := by
  have h := isolate_clears_flag_and_blocks_exploit Defender.init dmzAttacker
    dmzNodes "DMZ" { value := 10, exposure := 0.40, is_compromised := true }
    ⟨zeroStream, 0⟩ (by decide) rfl rfl
  exact ⟨h.1, h.2 dmzAttacker { Defender.init with isolated := ["DMZ"] }
    dmzNodes ⟨zeroStream, 0⟩ (by decide)⟩

/-- An update that does not touch the compromise flag preserves the
synchronisation invariant. -/
lemma SyncInv.update_keep_flag {compromised : List String} {nodes : Registry}
    {k : String} {f : Node → Node}
    (hf : ∀ n, (f n).is_compromised = n.is_compromised)
    (h : SyncInv compromised nodes) :
    SyncInv compromised (updateNode nodes k f) := by
  intro p hp
  obtain ⟨q, hq, rfl⟩ := mem_updateNode hp
  split
  · show (f q.2).is_compromised = true ↔ q.1 ∈ compromised
    rw [hf]
    exact h q hq
  · exact h q hq

/-- Source `act_recruit` never changes the compromised set. -/
lemma act_recruit_compromised (att : Attacker) :
    (act_recruit att).2.2.compromised = att.compromised := by
  by_cases hf : att.funds ≥ 15 <;> simp [act_recruit, hf]

/-- Source `act_harden` never changes the compromised set. -/
lemma act_harden_compromised (att : Attacker) (node : String) :
    (act_harden att node).2.2.compromised = att.compromised := by
  by_cases hn : node ∉ att.compromised <;> simp [act_harden, hn]

/-- Counterexample to C1 as stated: starting from a consistently
compromised `CorpLAN`, the resolved `def_isolate("CorpLAN")` action leaves
a state where the node flag is cleared but the attacker's set still holds
`"CorpLAN"` — the equivalence fails. -/
theorem sync_inv_broken_by_isolate_cex :
    SyncInv corpLanState.att.compromised corpLanState.nodes ∧
    (resolve (GameAction.dfd (DAction.isolate "CorpLAN")) corpLanState).map
        (fun r => decide (SyncInv r.2.2.att.compromised r.2.2.nodes)) =
      some false := by
  exact ⟨by decide, by rfl⟩

/-- C1 (amended): the flag/set equivalence is an invariant of every
resolved action other than a `def_isolate` aimed at a currently
compromised node (which clears only the flag, leaving the set
membership). -/
theorem sync_inv_preserved (a : GameAction) (s : GameState) (m : Message)
    (d : Bool) (s2 : GameState) (hsafe : isolateSafe a s)
    (hinv : SyncInv s.att.compromised s.nodes)
    (hres : resolve a s = some (m, d, s2)) :
    SyncInv s2.att.compromised s2.nodes := by
  cases a with
  | atk aa =>
    simp only [resolve] at hres
    split at hres
    · exact absurd hres (by simp)
    · rename_i o ho
      cases hres
      obtain ⟨u, hu, _, _, hatt, hnodes, _, _⟩ := resolve_attacker_action_shape ho
      show SyncInv o.att.compromised o.nodes
      rw [hatt, hnodes]
      cases aa with
      | recon node =>
        obtain ⟨ha, -, -, hn⟩ := act_recon_shape hu
        rw [ha]
        rcases hn with hn | hn <;> rw [hn]
        · exact hinv
        · exact hinv.update_keep_flag (fun n => rfl)
      | social =>
        obtain ⟨-, -, hsh⟩ := act_social_shape hu
        rcases hsh with ⟨ha, hn⟩ | ⟨ha, hn⟩ <;> rw [ha, hn]
        · exact hinv
        · exact hinv.compromise "Insider"
      | recruit =>
        simp only [attacker_dispatch] at hu
        cases hu
        show SyncInv (act_recruit s.att).2.2.compromised s.nodes
        rw [act_recruit_compromised]
        exact hinv
      | exploit target =>
        obtain ⟨-, hsh⟩ := act_exploit_shape hu
        rcases hsh with ⟨ha, hn⟩ | ⟨ha, hn⟩ <;> rw [ha, hn]
        · exact hinv
        · exact hinv.compromise target
      | lateral src dst =>
        obtain ⟨-, hsh⟩ := act_lateral_shape hu
        rcases hsh with ⟨ha, hn⟩ | ⟨ha, hn⟩ <;> rw [ha, hn]
        · exact hinv
        · exact hinv.compromise dst
      | exfiltrate node =>
        obtain ⟨-, hn, hsh⟩ := act_exfiltrate_shape hu
        rw [hn]
        rcases hsh with ha | ⟨nd, -, ha⟩ <;> rw [ha] <;> exact hinv
      | harden node =>
        simp only [attacker_dispatch] at hu
        cases hu
        show SyncInv (act_harden s.att node).2.2.compromised s.nodes
        rw [act_harden_compromised]
        exact hinv
      | unknown key =>
        simp only [attacker_dispatch] at hu
        cases hu
        exact hinv
  | dfd da =>
    simp only [resolve] at hres
    split at hres
    · exact absurd hres (by simp)
    · rename_i o ho
      cases hres
      show SyncInv o.att.compromised o.nodes
      cases da with
      | patch node =>
        obtain ⟨ha, -, hsh⟩ := def_patch_shape ho
        rw [ha]
        rcases hsh with ⟨-, hn⟩ | ⟨-, nd, -, hn⟩ <;> rw [hn]
        · exact hinv
        · exact hinv.update_keep_flag (fun n => rfl)
      | monitor =>
        simp only [resolve_defender_action] at ho
        cases ho
        rcases (@def_monitor_shape s.att s.dfn s.nodes s.rng) with h | h <;> rw [h] <;> exact hinv
      | awareness =>
        simp only [resolve_defender_action] at ho
        cases ho
        rcases (@def_awareness_shape s.att s.dfn s.nodes s.rng) with h | h <;> rw [h] <;> exact hinv
      | isolate node =>
        obtain ⟨ha, -, hsh⟩ := def_isolate_shape ho
        rw [ha]
        rcases hsh with ⟨-, hn⟩ | ⟨nd, hlk, -, hn⟩
        · rw [hn]; exact hinv
        · have hflag : nd.is_compromised = false := hsafe nd hlk
          rw [hn, if_neg (by simp [hflag])]
          exact hinv
      | honeypot node =>
        simp only [resolve_defender_action] at ho
        cases ho
        rcases (@def_honeypot_shape s.att s.dfn s.nodes s.rng node) with h | h <;>
          rw [h] <;> exact hinv
      | forensic =>
        obtain hsh := def_forensic_shape ho
        rcases hsh with ⟨ha, -, hn⟩ | ⟨ha, -, hn⟩ | ⟨ns, cs, hev, ha, -, hn⟩ <;>
          rw [ha, hn]
        · exact hinv
        · exact hinv
        · exact evictNodes_syncInv _ _ _ _ _ hinv hev
      | unknown key =>
        simp only [resolve_defender_action] at ho
        cases ho
        exact hinv

/-- Witness for `sync_inv_preserved`: a concrete `def_honeypot` resolution
from the consistently compromised `CorpLAN` state. -/
theorem sync_inv_preserved_witness :
    SyncInv
      ({ att := corpLanState.att,
         dfn := { Defender.init with budget := 53, honeypots := ["DMZ"] },
         nodes := corpLanState.nodes,
         rng := ⟨zeroStream, 0⟩ } : GameState).att.compromised
      ({ att := corpLanState.att,
         dfn := { Defender.init with budget := 53, honeypots := ["DMZ"] },
         nodes := corpLanState.nodes,
         rng := ⟨zeroStream, 0⟩ } : GameState).nodes :=
  sync_inv_preserved (GameAction.dfd (DAction.honeypot "DMZ")) corpLanState
    (Message.honeypotMsg "DMZ") false _ trivial (by decide) (by rfl)

/-- Counterexample to C4 as stated: `act_exploit` on the unknown node name
`"Workstation"` does not return a failure result — it aborts with a
`KeyError` (modelled as `none`). -/
theorem unknown_node_not_rejected_cex :
    act_exploit Attacker.init Defender.init BASE_NODES "Workstation"
      ⟨zeroStream, 0⟩ = none := by
  rfl

/-- C4 (amended): attacker actions do not defensively reject unknown node
names: reading the registry at an absent key raises `KeyError` (the action
aborts with no result) rather than returning a precondition-failure
message — so `act_exploit` on any unknown, non-isolated target aborts, as
does `act_lateral` onto an unknown adjacent destination. -/
theorem unknown_node_raises (att : Attacker) (dfn : Defender)
    (nodes : Registry) (g : Rng) (target : String)
    (hiso : target ∉ dfn.isolated) (hlk : lookupNode nodes target = none) :
    act_exploit att dfn nodes target g = none ∧
    (∀ src, src ∈ att.compromised → target ∈ TOPOLOGY src →
      act_lateral att dfn nodes src target g = none) := by
  constructor
  · simp [act_exploit, hiso, hlk]
  · intro src hs ht
    simp [act_lateral, hs, ht, hlk]

/-- Witness for `unknown_node_raises` on concrete unknown names. -/
theorem unknown_node_raises_witness :
    act_exploit Attacker.init Defender.init BASE_NODES "Printer"
      ⟨zeroStream, 0⟩ = none ∧
    act_lateral dmzAttacker Defender.init
      [("DMZ", { value := 10, exposure := 0.40, is_compromised := true })]
      "DMZ" "CorpLAN" ⟨zeroStream, 0⟩ = none := by
  have h1 := unknown_node_raises Attacker.init Defender.init BASE_NODES
    ⟨zeroStream, 0⟩ "Printer" (by decide) rfl
  have h2 := unknown_node_raises dmzAttacker Defender.init
    [("DMZ", { value := 10, exposure := 0.40, is_compromised := true })]
    ⟨zeroStream, 0⟩ "CorpLAN" (by decide) rfl
  exact ⟨h1.1, h2.2 "DMZ" (by decide) (by simp [TOPOLOGY])⟩

/-- One step of `updateNode`. -/
lemma updateNode_cons (k' : String) (v : Node) (tl : Registry) (k : String)
    (f : Node → Node) :
    updateNode ((k', v) :: tl) k f =
      (k', if k' = k then f v else v) :: updateNode tl k f := by
  by_cases h : k' = k <;> simp [updateNode, h]

/-- Source `updateNode` leaves lookups at other keys alone and maps the looked-up
node at the updated key. -/
lemma lookupNode_updateNode (nodes : Registry) (k : String) (f : Node → Node)
    (x : String) :
    lookupNode (updateNode nodes k f) x =
      if k = x then (lookupNode nodes x).map f else lookupNode nodes x := by
  induction nodes with
  | nil => simp [lookupNode, updateNode]
  | cons hd tl ih =>
    obtain ⟨k', v⟩ := hd
    rw [updateNode_cons]
    by_cases h1 : k' = k
    · subst h1
      by_cases h2 : k' = x
      · subst h2
        simp [lookupNode]
      · simp [lookupNode, h2, ih]
    · have h1s : ¬ k = k' := fun h => h1 h.symm
      by_cases h2 : k' = x
      · subst h2
        simp [lookupNode, h1, h1s]
      · simp [lookupNode, h1, h2, ih]

/-- The eviction loop succeeds as soon as every evicted name is a registry
key. -/
lemma evictNodes_total :
    ∀ (removed : List String) (nodes : Registry) (compromised : List String),
      (∀ x ∈ removed, (lookupNode nodes x).isSome = true) →
      ∃ ns cs, evictNodes removed nodes compromised = some (ns, cs) := by
  intro removed
  induction removed with
  | nil => exact fun nodes compromised _ => ⟨nodes, compromised, rfl⟩
  | cons hd tl ih =>
    intro nodes compromised hmem
    have hhd := hmem hd (List.mem_cons_self hd tl)
    obtain ⟨nd, hnd⟩ := Option.isSome_iff_exists.mp hhd
    have hrest : ∀ x ∈ tl,
        (lookupNode (updateNode nodes hd
          (fun n => { n with is_compromised := false })) x).isSome = true := by
      intro x hx
      rw [lookupNode_updateNode]
      split
    
      · next heq => rw [← heq]; simp [hnd]
      · exact hmem x (List.mem_cons_of_mem hd hx)
    obtain ⟨ns, cs, hns⟩ := ih _ (setDiscard compromised hd) hrest
    exact ⟨ns, cs, by simp only [evictNodes, hnd, hns]⟩

/-- The compromised set coming out of the eviction loop is the input set
with each evicted name discarded. -/
lemma evictNodes_compromised :
    ∀ (removed : List String) (nodes : Registry) (compromised : List String)
      (ns : Registry) (cs : List String),
      evictNodes removed nodes compromised = some (ns, cs) →
      cs = removed.foldl setDiscard compromised := by
  intro removed
  induction removed with
  | nil =>
    intro nodes compromised ns cs h
    simp only [evictNodes] at h
    cases h
    rfl
  | cons hd tl ih =>
    intro nodes compromised ns cs h
    simp only [evictNodes] at h
    split at h
    · exact absurd h (by simp)
    · exact ih _ _ _ _ h

/-- Discarding a prefix of a duplicate-free list, one element at a time,
drops exactly that prefix. -/
lemma foldl_setDiscard_take :
    ∀ (l : List String), l.Nodup → ∀ k : ℕ,
      (l.take k).foldl setDiscard l = l.drop k := by
  intro l
  induction l with
  | nil => intro _ k; simp [setDiscard]
  | cons hd tl ih =>
    intro hnd k
    cases k with
    | zero => rfl
    | succ k =>
      have hhd : hd ∉ tl := (List.nodup_cons.mp hnd).1
      have h1 : setDiscard (hd :: tl) hd = tl := by
        unfold setDiscard
        simp only [List.filter_cons]
        rw [if_neg (by simp)]
        exact List.filter_eq_self.mpr (fun x hx => by
          simp only [decide_eq_true_eq]
          exact fun hcontra => hhd (hcontra ▸ hx))
      have h2 : ∀ (init : List String) (ks : List String), ks ⊆ tl →
          init = tl → ks.foldl setDiscard init = ks.foldl setDiscard tl := by
        intro init ks _ h
        rw [h]
      simp only [List.take_succ_cons, List.drop_succ_cons, List.foldl_cons, h1]
      have htake : tl.take k ⊆ tl := List.take_subset k tl
      exact ih (List.nodup_cons.mp hnd).2 k

/-- Nodes already cleared stay cleared through the rest of the eviction
loop. -/
lemma evictNodes_keeps_false :
    ∀ (removed : List String) (nodes : Registry) (compromised : List String)
      (ns : Registry) (cs : List String),
      evictNodes removed nodes compromised = some (ns, cs) →
      ∀ x nd, lookupNode nodes x = some nd → nd.is_compromised = false →
      ∃ nd2, lookupNode ns x = some nd2 ∧ nd2.is_compromised = false := by
  intro removed
  induction removed with
  | nil =>
    intro nodes compromised ns cs h x nd hx hflag
    simp only [evictNodes] at h
    cases h
    exact ⟨nd, hx, hflag⟩
  | cons hd tl ih =>
    intro nodes compromised ns cs h x nd hx hflag
    simp only [evictNodes] at h
    split at h
    · exact absurd h (by simp)
    · by_cases heq : hd = x
      · refine ih _ _ _ _ h x { nd with is_compromised := false } ?_ rfl
        rw [lookupNode_updateNode, if_pos heq, hx]
        rfl
      · refine ih _ _ _ _ h x nd ?_ hflag
        rw [lookupNode_updateNode, if_neg heq]
        exact hx

/-- Every evicted node comes out of the loop with its flag cleared. -/
lemma evictNodes_clears :
    ∀ (removed : List String) (nodes : Registry) (compromised : List String)
      (ns : Registry) (cs : List String),
      evictNodes removed nodes compromised = some (ns, cs) →
      ∀ x ∈ removed,
        ∃ nd, lookupNode ns x = some nd ∧ nd.is_compromised = false := by
  intro removed
  induction removed with
  | nil =>
    intro nodes compromised ns cs h x hx
    exact absurd hx (by simp)
  | cons hd tl ih =>
    intro nodes compromised ns cs h x hx
    simp only [evictNodes] at h
    split at h
    · exact absurd h (by simp)
    · next nd hnd =>
      rcases List.mem_cons.mp hx with rfl | hmem
      · refine evictNodes_keeps_false _ _ _ _ _ h x
          { nd with is_compromised := false } ?_ rfl
        rw [lookupNode_updateNode, if_pos rfl, hnd]
        rfl
      · exact ih _ _ _ _ h x hmem

/-- C8: with sufficient budget, `def_forensic` succeeds exactly when the
draw lands below `min(0.9, (0.4 + 0.05·|compromised|)·monitoring)`; on a
successful roll with a non-empty compromised set it evicts exactly
`max(1, |compromised| // 2)` nodes — clearing both their flags and their
set membership — and floors the attacker's funds at `max(0, funds − 10)`
and skill at `max(1.0, skill − 0.5)`. -/
theorem def_forensic_correct (dfn : Defender) (att : Attacker)
    (nodes : Registry) (g : Rng)
    (hb : ¬ dfn.budget < 10)
    (hmem : ∀ x ∈ att.compromised, (lookupNode nodes x).isSome = true)
    (hnd : att.compromised.Nodup) :
    (¬ g.stream g.idx <
        min 0.9 ((0.4 + 0.05 * (att.compromised.length : ℚ)) * dfn.monitoring) →
      def_forensic dfn att nodes g =
        some ⟨Message.forensicNoFindings, att,
          { dfn with budget := dfn.budget - 10 }, nodes,
          ⟨g.stream, g.idx + 1⟩⟩) ∧
    (g.stream g.idx <
        min 0.9 ((0.4 + 0.05 * (att.compromised.length : ℚ)) * dfn.monitoring) →
      att.compromised ≠ [] →
      ∃ nodes2,
        def_forensic dfn att nodes g =
          some ⟨Message.forensicSuccess
              (att.compromised.take (max 1 (att.compromised.length / 2))),
            { att with
               compromised :=
                 att.compromised.drop (max 1 (att.compromised.length / 2)),
               funds := max 0 (att.funds - 10),
               skill := max 1 (att.skill - 0.5) },
            { dfn with budget := dfn.budget - 10 }, nodes2,
            ⟨g.stream, g.idx + 1⟩⟩ ∧
        (att.compromised.take (max 1 (att.compromised.length / 2))).length =
          max 1 (att.compromised.length / 2) ∧
        (∀ x ∈ att.compromised.take (max 1 (att.compromised.length / 2)),
          ∃ nd, lookupNode nodes2 x = some nd ∧ nd.is_compromised = false)) := by
  constructor
  · intro hno
    simp [def_forensic, hb, Rng.random, hno]
  · intro hyes hne
    have hcount : att.compromised.length ≠ 0 := by
      simpa using fun h => hne (List.length_eq_zero.mp h)
    have hk : max 1 (att.compromised.length / 2) ≤ att.compromised.length := by
      have h1 : 1 ≤ att.compromised.length := Nat.one_le_iff_ne_zero.mpr hcount
      exact max_le h1 (Nat.div_le_self _ _)
    have hsub : ∀ x ∈ att.compromised.take (max 1 (att.compromised.length / 2)),
        (lookupNode nodes x).isSome = true :=
      fun x hx => hmem x (List.take_subset _ _ hx)
    obtain ⟨ns, cs, hev⟩ := evictNodes_total _ nodes att.compromised hsub
    have hcs : cs = att.compromised.drop (max 1 (att.compromised.length / 2)) := by
      rw [evictNodes_compromised _ _ _ _ _ hev]
      exact foldl_setDiscard_take att.compromised hnd _
    refine ⟨ns, ?_, ?_, ?_⟩
    · rw [← hcs]
      simp [def_forensic, hb, Rng.random, hyes, hcount, hev]
    · simp [List.length_take, min_eq_left hk]
    · exact evictNodes_clears _ _ _ _ _ hev

/-- Witness for `def_forensic_correct`: with `{DMZ, CorpLAN, Admin}`
compromised and a successful roll, exactly `max(1, 3//2) = 1` node is
evicted, 2 stay compromised, and funds/skill drop to 40 and 4.5. -/
theorem def_forensic_correct_witness :
    ∃ nodes2,
      def_forensic Defender.init
          { Attacker.init with compromised := ["DMZ", "CorpLAN", "Admin"] }
          corpLanState.nodes ⟨zeroStream, 0⟩ =
        some ⟨Message.forensicSuccess ["DMZ"],
          { Attacker.init with
             compromised := ["CorpLAN", "Admin"],
             funds := max 0 (Attacker.init.funds - 10),
             skill := max 1 (Attacker.init.skill - 0.5) },
          { Defender.init with budget := Defender.init.budget - 10 }, nodes2,
          ⟨zeroStream, 1⟩⟩ ∧
      (["DMZ", "CorpLAN", "Admin"].take (max 1 (3 / 2))).length = max 1 (3 / 2) ∧
      (∀ x ∈ ["DMZ", "CorpLAN", "Admin"].take (max 1 (3 / 2)),
        ∃ nd, lookupNode nodes2 x = some nd ∧ nd.is_compromised = false) := by
  have h := def_forensic_correct Defender.init
    { Attacker.init with compromised := ["DMZ", "CorpLAN", "Admin"] }
    corpLanState.nodes ⟨zeroStream, 0⟩ (by decide) (by decide) (by decide)
  exact h.2 (by norm_num [zeroStream, Attacker.init, Defender.init]) (by decide)

/-- Python `int()` of a non-negative float is non-negative. -/
lemma pytrunc_nonneg {q : ℚ} (h : 0 ≤ q) : 0 ≤ pytrunc q := by
  unfold pytrunc
  rw [if_pos h]
  exact Rat.le_floor.mpr (by exact_mod_cast h)

/-- Exposure bounds survive a flag-only update. -/
lemma expBounds_flag (b : Bool) {nodes : Registry} {k : String}
    (h : ∀ p ∈ nodes, 0 ≤ p.2.exposure ∧ p.2.exposure ≤ 1) :
    ∀ p ∈ updateNode nodes k (fun n => { n with is_compromised := b }),
      0 ≤ p.2.exposure ∧ p.2.exposure ≤ 1 :=
  updateNode_pres (fun n => 0 ≤ n.exposure ∧ n.exposure ≤ 1) (fun _ hn => hn) h

/-- Exposure bounds survive the recon bump `min(1, exposure + 0.1)`. -/
lemma expBounds_recon {nodes : Registry} {k : String}
    (h : ∀ p ∈ nodes, 0 ≤ p.2.exposure ∧ p.2.exposure ≤ 1) :
    ∀ p ∈ updateNode nodes k
        (fun n => { n with exposure := min 1 (n.exposure + 0.1) }),
      0 ≤ p.2.exposure ∧ p.2.exposure ≤ 1 := by
  refine updateNode_pres (fun n => 0 ≤ n.exposure ∧ n.exposure ≤ 1)
    (fun n hn => ⟨?_, min_le_left _ _⟩) h
  have h0 := hn.1
  refine le_min (by norm_num) (by linarith)

/-- Exposure bounds survive the eviction loop. -/
lemma expBounds_evict {removed : List String} {nodes ns : Registry}
    {compromised cs : List String}
    (hev : evictNodes removed nodes compromised = some (ns, cs))
    (h : ∀ p ∈ nodes, 0 ≤ p.2.exposure ∧ p.2.exposure ≤ 1) :
    ∀ p ∈ ns, 0 ≤ p.2.exposure ∧ p.2.exposure ≤ 1 :=
  evictNodes_pres (fun n => 0 ≤ n.exposure ∧ n.exposure ≤ 1)
    (fun _ hn => hn) removed nodes compromised ns cs h hev

/-- The starting registry satisfies the exposure bounds. -/
lemma base_nodes_exposure : ∀ p ∈ BASE_NODES, 0 ≤ p.2.exposure ∧ p.2.exposure ≤ 1 := by
  intro p hp
  simp only [BASE_NODES, List.mem_cons, List.not_mem_nil, or_false] at hp
  rcases hp with rfl | rfl | rfl | rfl | rfl | rfl | rfl <;> constructor <;> norm_num

/-- The starting registry has non-negative values. -/
lemma base_nodes_values : ∀ p ∈ BASE_NODES, 0 ≤ p.2.value := by
  intro p hp
  simp only [BASE_NODES, List.mem_cons, List.not_mem_nil, or_false] at hp
  rcases hp with rfl | rfl | rfl | rfl | rfl | rfl | rfl <;> norm_num

/-- C6: every resolved action preserves the bounds — `monitoring` stays in
`[1, 3]` (detection escalation included), patch levels never exceed 10,
exposures stay in `[0, 1]` — and `exfiltrated_value` never decreases
(given non-negative node values and `[0,1)` draws). -/
theorem bounds_preserved (a : GameAction) (s : GameState) (m : Message)
    (d : Bool) (s2 : GameState)
    (hbd : EngineBounds s) (hval : ValuesNonneg s.nodes)
    (hstream : StreamNonneg s.rng)
    (hres : resolve a s = some (m, d, s2)) :
    EngineBounds s2 ∧ s.att.exfiltrated_value ≤ s2.att.exfiltrated_value := by
  obtain ⟨hm1, hm3, hpl, hexp⟩ := hbd
  cases a with
  | atk aa =>
    simp only [resolve] at hres
    split at hres
    · exact absurd hres (by simp)
    · rename_i o ho
      cases hres
      obtain ⟨u, hu, _, _, hatt, hnodes, _, hdfn⟩ := resolve_attacker_action_shape ho
      have hudfn : u.dfn = s.dfn := attacker_dispatch_dfn hu
      have hdfnBounds : 1 ≤ o.dfn.monitoring ∧ o.dfn.monitoring ≤ 3 ∧
          o.dfn.patch_level = s.dfn.patch_level := by
        rcases hdfn with h | h <;> rw [h, hudfn]
        · exact ⟨hm1, hm3, rfl⟩
        · exact ⟨le_min (by norm_num) (by linarith), min_le_left _ _, rfl⟩
      have hrest : (∀ p ∈ u.nodes, 0 ≤ p.2.exposure ∧ p.2.exposure ≤ 1) ∧
          s.att.exfiltrated_value ≤ u.att.exfiltrated_value := by
        cases aa with
        | recon node =>
          obtain ⟨ha, -, -, hn⟩ := act_recon_shape hu
          rw [ha]
          rcases hn with hn | hn <;> rw [hn]
          · exact ⟨hexp, le_refl _⟩
          · exact ⟨expBounds_recon hexp, le_refl _⟩
        | social =>
          obtain ⟨-, -, hsh⟩ := act_social_shape hu
          rcases hsh with ⟨ha, hn⟩ | ⟨ha, hn⟩ <;> rw [ha, hn]
          · exact ⟨hexp, le_refl _⟩
          · exact ⟨expBounds_flag true hexp, le_refl _⟩
        | recruit =>
          simp only [attacker_dispatch] at hu
          cases hu
          refine ⟨hexp, ?_⟩
          show s.att.exfiltrated_value ≤ (act_recruit s.att).2.2.exfiltrated_value
          by_cases hf : s.att.funds ≥ 15 <;> simp [act_recruit, hf]
        | exploit target =>
          obtain ⟨-, hsh⟩ := act_exploit_shape hu
          rcases hsh with ⟨ha, hn⟩ | ⟨ha, hn⟩ <;> rw [ha, hn]
          · exact ⟨hexp, le_refl _⟩
          · exact ⟨expBounds_flag true hexp, le_refl _⟩
        | lateral src dst =>
          obtain ⟨-, hsh⟩ := act_lateral_shape hu
          rcases hsh with ⟨ha, hn⟩ | ⟨ha, hn⟩ <;> rw [ha, hn]
          · exact ⟨hexp, le_refl _⟩
          · exact ⟨expBounds_flag true hexp, le_refl _⟩
        | exfiltrate node =>
          obtain ⟨-, hn, hsh⟩ := act_exfiltrate_shape hu
          rw [hn]
          refine ⟨hexp, ?_⟩
          rcases hsh with ha | ⟨nd, hlk, ha⟩ <;> rw [ha]
          have hgain : 0 ≤ pytrunc ((nd.value : ℚ) *
              (0.5 + (1 - 0.5) * s.rng.stream (s.rng.idx + 2))) := by
            refine pytrunc_nonneg (mul_nonneg ?_ ?_)
            · exact_mod_cast hval _ (lookupNode_mem hlk)
            · have := hstream (s.rng.idx + 2)
              nlinarith
          simp only [ge_iff_le, le_add_iff_nonneg_right]
          exact hgain
        | harden node =>
          simp only [attacker_dispatch] at hu
          cases hu
          refine ⟨hexp, ?_⟩
          show s.att.exfiltrated_value ≤ (act_harden s.att node).2.2.exfiltrated_value
          by_cases hc : node ∉ s.att.compromised <;> simp [act_harden, hc]
        | unknown key =>
          simp only [attacker_dispatch] at hu
          cases hu
          exact ⟨hexp, le_refl _⟩
      refine ⟨⟨hdfnBounds.1, hdfnBounds.2.1, ?_, ?_⟩, ?_⟩
      · show ∀ p ∈ o.dfn.patch_level, p.2 ≤ 10
        rw [hdfnBounds.2.2]
        exact hpl
      · show ∀ p ∈ o.nodes, 0 ≤ p.2.exposure ∧ p.2.exposure ≤ 1
        rw [hnodes]
        exact hrest.1
      · show s.att.exfiltrated_value ≤ o.att.exfiltrated_value
        rw [hatt]
        exact hrest.2
  | dfd da =>
    simp only [resolve] at hres
    split at hres
    · exact absurd hres (by simp)
    · rename_i o ho
      cases hres
      show EngineBounds ⟨o.att, o.dfn, o.nodes, o.rng⟩ ∧
        s.att.exfiltrated_value ≤ o.att.exfiltrated_value
      cases da with
      | patch node =>
        obtain ⟨ha, -, hsh⟩ := def_patch_shape ho
        rcases hsh with ⟨hd, hn⟩ | ⟨hd, nd, hlk, hn⟩ <;> rw [ha, hd, hn]
        · exact ⟨⟨hm1, hm3, hpl, hexp⟩, le_refl _⟩
        · refine ⟨⟨hm1, hm3, ?_, ?_⟩, le_refl _⟩
          · intro p hp
            rcases mem_setPatch hp with h | h
            · rw [h]; exact min_le_left _ _
            · exact hpl p h
          · have hnd1 := (hexp _ (lookupNode_mem hlk)).2
            show ∀ p ∈ updateNode s.nodes node
              (fun n => { n with exposure := max 0.05 (nd.exposure - 0.15) }),
              0 ≤ p.2.exposure ∧ p.2.exposure ≤ 1
            refine updateNode_pres (fun n => 0 ≤ n.exposure ∧ n.exposure ≤ 1)
              (fun n hn2 => ⟨?_, ?_⟩) hexp
            · exact le_max_of_le_left (by norm_num)
            · exact max_le (by norm_num) (by linarith)
      | monitor =>
        simp only [resolve_defender_action] at ho
        cases ho
        rcases (@def_monitor_shape s.att s.dfn s.nodes s.rng) with h | h <;> rw [h]
        · exact ⟨⟨hm1, hm3, hpl, hexp⟩, le_refl _⟩
        · exact ⟨⟨le_min (by norm_num) (by linarith), min_le_left _ _, hpl, hexp⟩,
            le_refl _⟩
      | awareness =>
        simp only [resolve_defender_action] at ho
        cases ho
        rcases (@def_awareness_shape s.att s.dfn s.nodes s.rng) with h | h <;> rw [h]
        · exact ⟨⟨hm1, hm3, hpl, hexp⟩, le_refl _⟩
        · exact ⟨⟨hm1, hm3, hpl, hexp⟩, le_refl _⟩
      | isolate node =>
        obtain ⟨ha, -, hsh⟩ := def_isolate_shape ho
        rcases hsh with ⟨hd, hn⟩ | ⟨nd, hlk, hd, hn⟩ <;> rw [ha, hd, hn]
        · exact ⟨⟨hm1, hm3, hpl, hexp⟩, le_refl _⟩
        · refine ⟨⟨hm1, hm3, hpl, ?_⟩, le_refl _⟩
          split
          · exact expBounds_flag false hexp
          · exact hexp
      | honeypot node =>
        simp only [resolve_defender_action] at ho
        cases ho
        rcases (@def_honeypot_shape s.att s.dfn s.nodes s.rng node) with h | h <;> rw [h]
        · exact ⟨⟨hm1, hm3, hpl, hexp⟩, le_refl _⟩
        · exact ⟨⟨hm1, hm3, hpl, hexp⟩, le_refl _⟩
      | forensic =>
        obtain hsh := def_forensic_shape ho
        rcases hsh with ⟨ha, hd, hn⟩ | ⟨ha, hd, hn⟩ | ⟨ns, cs, hev, ha, hd, hn⟩ <;>
          rw [ha, hd, hn]
        · exact ⟨⟨hm1, hm3, hpl, hexp⟩, le_refl _⟩
        · exact ⟨⟨hm1, hm3, hpl, hexp⟩, le_refl _⟩
        · exact ⟨⟨hm1, hm3, hpl, expBounds_evict hev hexp⟩, le_refl _⟩
      | unknown key =>
        simp only [resolve_defender_action] at ho
        cases ho
        exact ⟨⟨hm1, hm3, hpl, hexp⟩, le_refl _⟩

/-- Witness for `bounds_preserved`: the starting state satisfies all
bounds and a concrete `def_monitor` resolution keeps them. -/
theorem bounds_preserved_witness :
    EngineBounds ({ att := Attacker.init,
                    dfn := { Defender.init with budget := 54, monitoring := 1.3 },
                    nodes := BASE_NODES, rng := ⟨zeroStream, 0⟩ } : GameState) ∧
    (GameState.init zeroStream).att.exfiltrated_value ≤
      ({ att := Attacker.init,
         dfn := { Defender.init with budget := 54, monitoring := 1.3 },
         nodes := BASE_NODES, rng := ⟨zeroStream, 0⟩ } : GameState).att.exfiltrated_value := by
  refine bounds_preserved (GameAction.dfd DAction.monitor) (GameState.init zeroStream)
    (Message.monitorMsg 1.3) false _ ?_ ?_ ?_ ?_
  · refine ⟨by norm_num [GameState.init, Defender.init],
      by norm_num [GameState.init, Defender.init], ?_, ?_⟩
    · intro p hp
      simp [GameState.init, Defender.init] at hp
    · exact base_nodes_exposure
  · exact base_nodes_values
  · intro n
    simp [GameState.init, zeroStream]
  · show resolve _ _ = _
    simp [resolve, resolve_defender_action, def_monitor, GameState.init,
      Defender.init, Attacker.init]
    norm_num
